import Mathlib

/-!
Verification of the CLSI-guideline pipeline scripts
(`clsi guideline to protocol/hello.py` and
`clsi_guidelines_minimiser_agent/main.py`).

Strings are modelled as `List Char`.  The float arithmetic of
`trim_latex_content` (`int(len(lines) * (max_words / word_count))`) is
modelled bit-exactly: `pyTrimKeep` performs the true division, the
int-to-float conversion and the product as IEEE-754 binary64 operations
with round-to-nearest-even, then truncates, as CPython does.  I/O effects
(file reads, PDF page extraction, OCR) are modelled by passing the
would-be results (or the caught exception message) explicitly.
-/

/-- Python whitespace characters recognised by `str.split()` / `str.strip()`
(ASCII subset, which covers all inputs appearing in these scripts). -/
def isPySpace (c : Char) : Bool :=
  c = ' ' || c = '\t' || c = '\n' || c = '\r' || c = '\x0b' || c = '\x0c'

/-- Python `s.strip()`: remove leading and trailing whitespace. -/
def pyStrip (l : List Char) : List Char :=
  ((l.dropWhile isPySpace).reverse.dropWhile isPySpace).reverse

/-- `startsWith hay needle`: `needle` is a leading run of `hay`. -/
def startsWith : List Char → List Char → Bool
  | _, [] => true
  | [], _ :: _ => false
  | a :: as, b :: bs => a = b && startsWith as bs

/-- Python `needle in hay` substring containment test. -/
def hasSubstr : List Char → List Char → Bool
  | [], needle => needle.isEmpty
  | h :: t, needle => startsWith (h :: t) needle || hasSubstr t needle

/-- Number of elements of Python `range(start, stop, step)` (for `step ≠ 0`). -/
def pyRangeLen (start stop step : Int) : Nat :=
  if 0 < step then ((stop - start + step - 1) / step).toNat
  else ((start - stop + (-step) - 1) / (-step)).toNat

/-- Python `range(start, stop, step)`: raises `ValueError` when `step = 0`,
otherwise yields `start, start + step, ...`. -/
def pyRange (start stop step : Int) : Except (List Char) (List Int) :=
  if step = 0 then .error ("ValueError: range() arg 3 must not be zero".toList)
  else .ok ((List.range (pyRangeLen start stop step)).map (fun (k : Nat) => start + (k : Int) * step))

/-- Python slice `s[i:j]` (step 1): indices are clamped to the string length,
negative indices count from the end. -/
def pySlice (s : List Char) (i j : Int) : List Char :=
  let n : Int := s.length
  let i2 : Int := if i < 0 then max (n + i) 0 else min i n
  let j2 : Int := if j < 0 then max (n + j) 0 else min j n
  (s.drop i2.toNat).take (j2 - i2).toNat

/-- `chunk_text` from both scripts:
`return [text[i:i + max_chars] for i in range(0, len(text), max_chars)]`.
The `Except` channel carries the `ValueError` that `range` raises when
`max_chars = 0`. -/
def chunk_text (text : List Char) (max_chars : Int) :
    Except (List Char) (List (List Char)) :=
  (pyRange 0 text.length max_chars).map
    (fun idxs => idxs.map (fun i => pySlice text i (i + max_chars)))

/-- Reference chunker: repeatedly take the first `m` characters.  Proved equal
to `chunk_text` for positive `m` in `chunk_text_eq_chunksOf`. -/
def chunksOf (m : Nat) (l : List Char) : List (List Char) :=
  if h : m = 0 ∨ l = [] then []
  else l.take m :: chunksOf m (l.drop m)
termination_by l.length
decreasing_by
  push_neg at h
  have hm : 0 < m := Nat.pos_of_ne_zero h.1
  have hl : 0 < l.length := List.length_pos.mpr h.2
  simp only [List.length_drop]
  omega

/-- The smallest `k` such that `l[k] = '}'` with no newline before it
(the lazy `.*?}` tail of the regex in `estimate_latex_word_count`). -/
def lazyClose : List Char → Option Nat
  | [] => none
  | c :: rest =>
    if c = '}' then some 0
    else if c = '\n' then none
    else (lazyClose rest).map (· + 1)

/-- Backtracking search for the greedy `[^ ]+` of the regex alternative
`\\[^ ]+{.*?}` applied after the backslash: `rest` is the text after the
backslash and the argument is the candidate length of the `[^ ]+` part,
tried longest-first.  Returns the number of characters of `rest` consumed
by `[^ ]+{.*?}` on success. -/
def alt1Search (rest : List Char) : Nat → Option Nat
  | 0 => none
  | n + 1 =>
    match rest.get? (n + 1) with
    | some c =>
      if c = '{' then
        match lazyClose (rest.drop (n + 2)) with
        | some k => some (n + 2 + k + 1)
        | none => alt1Search rest n
      else alt1Search rest n
    | none => alt1Search rest n

/-- Length of the match of the regex `\\[^ ]+{.*?}|\\[a-zA-Z]+|\{|\}` at the
head of the list (Python `re` semantics: alternatives are tried left to
right, `[^ ]+` is greedy with backtracking, `.*?` is lazy, `.` excludes
newline), or `none` if no alternative matches here. -/
def matchClsiPat : List Char → Option Nat
  | [] => none
  | '\\' :: rest =>
    match alt1Search rest ((rest.takeWhile (fun c => c ≠ ' ')).length) with
    | some m => some (1 + m)
    | none =>
      let letters := (rest.takeWhile (fun c => c.isAlpha)).length
      if 0 < letters then some (1 + letters) else none
  | '{' :: _ => some 1
  | '}' :: _ => some 1
  | _ => none

/-- Fuelled scanner for `clsiSub`: every step consumes at least one character
and one unit of fuel, so fuel equal to the length of the list is enough.
(`matchClsiPat` never returns `some 0`, so dropping `n - 1` characters of
the tail is the same as dropping `n` characters of the whole list.) -/
def clsiSubAux : Nat → List Char → List Char
  | 0, _ => []
  | _ + 1, [] => []
  | fuel + 1, c :: rest =>
    match matchClsiPat (c :: rest) with
    | some n => clsiSubAux fuel (rest.drop (n - 1))
    | none => c :: clsiSubAux fuel rest

/-- `re.sub(r'\\[^ ]+{.*?}|\\[a-zA-Z]+|\{|\}', '', text)`: delete every
non-overlapping match, scanning left to right. -/
def clsiSub (l : List Char) : List Char := clsiSubAux l.length l

/-- Python `len(s.split())`: number of maximal whitespace-free runs.  The
Bool argument records whether the previous character was inside a word. -/
def countWordsAux : List Char → Bool → Nat
  | [], _ => 0
  | c :: rest, inWord =>
    if isPySpace c then countWordsAux rest false
    else (if inWord then 0 else 1) + countWordsAux rest true

/-- Python `len(s.split())`. -/
def countWords (l : List Char) : Nat := countWordsAux l false

/-- `estimate_latex_word_count` from both scripts.  The file read is modelled
by an `Option (List Char)`: `none` is a file whose read raises, in which
case the exception handler returns `0`. -/
def estimate_latex_word_count : Option (List Char) → Nat
  | none => 0
  | some text => countWords (clsiSub text)

/-- Python `f.readlines()` on text `l`: split after each newline, keeping the
newline characters. -/
def pyReadlines : List Char → List (List Char)
  | [] => []
  | c :: rest =>
    if c = '\n' then [c] :: pyReadlines rest
    else
      match pyReadlines rest with
      | [] => [[c]]
      | l :: ls => (c :: l) :: ls

/-- `⌊log₂ n⌋` (0 for `n = 0`) by a fuelled structural recursion, so that the
kernel can evaluate it: each step halves `n`, and `n` units of fuel always
suffice. -/
def natLog2Aux : Nat → Nat → Nat
  | 0, _ => 0
  | fuel + 1, n => if n < 2 then 0 else natLog2Aux fuel (n / 2) + 1

/-- `⌊log₂ n⌋` for `1 ≤ n`. -/
def natLog2 (n : Nat) : Nat := natLog2Aux n n

/-- Round the rational `a / b` (`0 < b`) to the nearest integer, ties to
even — IEEE round-to-nearest-even at integer granularity. -/
def rndHalfEven (a b : Nat) : Nat :=
  let q := a / b
  let r := a % b
  if 2 * r < b then q
  else if b < 2 * r then q + 1
  else if q % 2 = 0 then q else q + 1

/-- `2 ^ e ≤ a / b` for the rational `a / b` and an integer exponent `e`. -/
def qle2pow (a b : Nat) (e : Int) : Bool :=
  if 0 ≤ e then b * 2 ^ e.toNat ≤ a else b ≤ a * 2 ^ (-e).toNat

/-- `⌊log₂ (a / b)⌋` for `1 ≤ a`, `1 ≤ b`.  The guess
`g = ⌊log₂ a⌋ - ⌊log₂ b⌋` satisfies `⌊log₂ (a/b)⌋ ∈ {g - 1, g}` (the floor
of a difference is the difference of floors or one less), and the true
value is `g` exactly when `2 ^ g ≤ a / b`. -/
def floorLog2 (a b : Nat) : Int :=
  let g : Int := (natLog2 a : Int) - (natLog2 b : Int)
  if qle2pow a b g then g else g - 1

/-- The IEEE-754 binary64 (Python `float`) value nearest to the nonnegative
rational `a / b` (`0 < b`), ties to even, returned as a dyadic pair
`(m, t)` standing for `m * 2 ^ t`: with `e = ⌊log₂ (a/b)⌋` the significand
is `m = round(a/b * 2^(52-e))` and `t = e - 52`.  The overflow and
subnormal regimes (magnitudes at or above `2^1024` or below `2^-1022`) are
outside what this pipeline's quantities can reach and are not modelled. -/
def fl64nd (a b : Nat) : Nat × Int :=
  let e := floorLog2 a b
  let s : Int := 52 - e
  let m := if 0 ≤ s then rndHalfEven (a * 2 ^ s.toNat) b
           else rndHalfEven a (b * 2 ^ (-s).toNat)
  (m, e - 52)

/-- The dyadic value `m * 2 ^ t` as a fraction of naturals. -/
def dyadicToFrac (p : Nat × Int) : Nat × Nat :=
  if 0 ≤ p.2 then (p.1 * 2 ^ p.2.toNat, 1) else (p.1, 2 ^ (-p.2).toNat)

/-- `⌊m * 2 ^ t⌋` for a nonnegative dyadic value — Python `int()` on a
nonnegative float. -/
def dyadicFloor (p : Nat × Int) : Nat :=
  if 0 ≤ p.2 then p.1 * 2 ^ p.2.toNat else p.1 / 2 ^ (-p.2).toNat

/-- `int(len(lines) * (max_words / word_count))` exactly as CPython computes
it for `L = len(lines)`, `W = max_words`, `E = word_count` (with
`0 ≤ W < E`, as at the call site): `W / E` is the correctly rounded
binary64 true division of the two ints, `L` is converted to binary64
(exact below `2^53`, rounded otherwise), the product is a binary64
multiplication (the correctly rounded exact product), and `int()`
truncates the nonnegative result toward zero. -/
def pyTrimKeep (L W E : Nat) : Nat :=
  let q := fl64nd W E
  let l := fl64nd L 1
  let prod := dyadicToFrac (l.1 * q.1, l.2 + q.2)
  dyadicFloor (fl64nd prod.1 prod.2)

/-- `trim_latex_content` from both scripts, on the modelled file state.  When
the estimated word count exceeds `max_words` the file is rewritten with its
first `int(len(lines) * (max_words / word_count))` lines, the count being
computed in binary64 float arithmetic (`pyTrimKeep`) as in CPython.  A file
whose read fails (`none`) estimates to `0` and is left untouched. -/
def trim_latex_content (file : Option (List Char)) (max_words : Nat) :
    Option (List Char) :=
  let word_count := estimate_latex_word_count file
  if word_count ≤ max_words then file
  else
    match file with
    | none => file
    | some text =>
      let lines := pyReadlines text
      some ((lines.take (pyTrimKeep lines.length max_words word_count)).flatten)

/-- A 100-line document with one word per line: 100 lines, estimated word
count 100. -/
def docHundred : List Char := (List.replicate 100 ['w', '\n']).flatten

/-- Effect model of one PDF file: `openResult` is the outcome of
`fitz.open` plus the per-page `get_text` calls (error = the caught exception
message), and `ocrResult` is the outcome of `convert_from_path` plus the
per-image `pytesseract.image_to_string` calls for the requested range. -/
structure PdfFile where
  openResult : Except (List Char) (List (List Char))
  ocrResult : Except (List Char) (List (List Char))

/-- The error marker produced by the `except` clause of `extract_pdf_text`
in both scripts: `f"Error extracting text from PDF: {str(e)}"`. -/
def errorMarker : List Char := "Error extracting text from PDF: ".toList

/-- The no-text sentinel of `hello.py`: `"No text extracted via OCR."`. -/
def noTextSentinel : List Char := "No text extracted via OCR.".toList

/-- The no-text sentinel of `main.py`:
`f"No text extracted from pages {start_page+1}–{end_page} via OCR."`. -/
def noTextSentinelPages (startPage endPage : Nat) : List Char :=
  "No text extracted from pages ".toList ++ (Nat.repr (startPage + 1)).toList
    ++ "–".toList ++ (Nat.repr endPage).toList ++ " via OCR.".toList

/-- The embedded-text accumulation loop of `extract_pdf_text`:
`if page_text: text += page_text + "\n"`. -/
def concatPageTexts (pages : List (List Char)) : List Char :=
  pages.foldl (fun acc p => if p = [] then acc else acc ++ p ++ ['\n']) []

/-- The OCR accumulation loop of `extract_pdf_text`:
`ocr_text += pytesseract.image_to_string(image) + "\n"`. -/
def concatOcrTexts (imgs : List (List Char)) : List Char :=
  imgs.foldl (fun acc p => acc ++ p ++ ['\n']) []

/-- `extract_pdf_text` from `hello.py` (all pages). -/
def extract_pdf_text (pdf : PdfFile) : List Char :=
  match pdf.openResult with
  | .error e => errorMarker ++ e
  | .ok pages =>
    let text := concatPageTexts pages
    if pyStrip text ≠ [] then text
    else
      match pdf.ocrResult with
      | .error e => errorMarker ++ e
      | .ok imgs =>
        let ocrText := concatOcrTexts imgs
        if pyStrip ocrText ≠ [] then ocrText else noTextSentinel

/-- `extract_pdf_text` from `main.py`: only pages
`range(start_page, min(end_page, len(doc)))` are read
(`ocrResult` already stands for the OCR output of the requested page
range, in page order). -/
def extract_pdf_text_pages (pdf : PdfFile) (startPage endPage : Nat) : List Char :=
  match pdf.openResult with
  | .error e => errorMarker ++ e
  | .ok pages =>
    let text := concatPageTexts ((pages.take (min endPage pages.length)).drop startPage)
    if pyStrip text ≠ [] then text
    else
      match pdf.ocrResult with
      | .error e => errorMarker ++ e
      | .ok imgs =>
        let ocrText := concatOcrTexts imgs
        if pyStrip ocrText ≠ [] then ocrText else noTextSentinelPages startPage endPage

/-- Outcome of the post-extraction step of `process_clsi_guideline`: either
the process exits, or the extracted text is handed to `create_tasks`. -/
inductive PipelineOutcome where
  | exited (code : Nat)
  | tasksBuilt (pdfText : List Char)
deriving DecidableEq

/-- The step of `process_clsi_guideline` in `hello.py` between obtaining
`pdf_text` and calling `create_tasks(pdf_text, ...)`: the sentinel check is
commented out, so every extraction result flows into task construction. -/
def process_text_gate_hello (pdfText : List Char) : PipelineOutcome :=
  .tasksBuilt pdfText

/-- The step of `process_clsi_guideline` in `main.py` between obtaining
`pdf_text` and calling `create_tasks(pdf_text, ...)`:
`if "Error" in pdf_text or not pdf_text.strip(): sys.exit(1)`. -/
def process_text_gate_main (pdfText : List Char) : PipelineOutcome :=
  if hasSubstr pdfText ("Error".toList) || (pyStrip pdfText).isEmpty
  then .exited 1
  else .tasksBuilt pdfText

theorem chunksOf_flatten (m : Nat) (hm : 0 < m) (l : List Char) :
    (chunksOf m l).flatten = l := by
  induction l using chunksOf.induct m with
  | case1 l h =>
    rcases h with h | h
    · omega
    · rw [chunksOf]
      simp [h]
  | case2 l h ih =>
    rw [chunksOf, dif_neg h, List.flatten_cons, ih, List.take_append_drop]

theorem chunksOf_length_le (m : Nat) (l : List Char) :
    ∀ c ∈ chunksOf m l, c.length ≤ m := by
  induction l using chunksOf.induct m with
  | case1 l h =>
    rw [chunksOf, dif_pos h]
    intro c hc
    simp at hc
  | case2 l h ih =>
    rw [chunksOf, dif_neg h]
    intro c hc
    rcases List.mem_cons.mp hc with rfl | hc2
    · exact List.length_take_le m l
    · exact ih c hc2

theorem ceilDivSucc (m : Nat) (hm : 0 < m) (len : Nat) (hl : 0 < len) :
    (len + m - 1) / m = ((len - m) + m - 1) / m + 1 := by
  have h1 : len + m - 1 = (len - 1) + m := by omega
  rw [h1, Nat.add_div_right _ hm]
  rcases le_or_lt len m with hle | hlt
  · have e1 : len - m + m - 1 = m - 1 := by omega
    rw [e1, Nat.div_eq_of_lt (by omega : m - 1 < m),
      Nat.div_eq_of_lt (by omega : len - 1 < m)]
  · have e1 : len - m + m - 1 = len - 1 := by omega
    rw [e1]

theorem chunksOf_count (m : Nat) (hm : 0 < m) (l : List Char) :
    (chunksOf m l).length = (l.length + m - 1) / m := by
  induction l using chunksOf.induct m with
  | case1 l h =>
    rcases h with h | h
    · omega
    · subst h
      rw [chunksOf, dif_pos (Or.inr rfl)]
      simp only [List.length_nil]
      rw [Nat.div_eq_of_lt (by omega : 0 + m - 1 < m)]
  | case2 l h ih =>
    push_neg at h
    have hl : 0 < l.length := List.length_pos.mpr h.2
    rw [chunksOf, dif_neg (by push_neg; exact h), List.length_cons, ih,
      List.length_drop, ceilDivSucc m hm l.length hl]

theorem pySlice_natCast (text : List Char) (a b : Nat) :
    pySlice text (a : Int) (b : Int) = (text.drop a).take (b - a) := by
  have ha : ¬ ((a : Int) < 0) := by omega
  have hb : ¬ ((b : Int) < 0) := by omega
  simp only [pySlice, ha, hb, if_false]
  rw [← Nat.cast_min, ← Nat.cast_min, Int.toNat_sub, Int.toNat_natCast]
  rcases le_or_lt a text.length with h | h
  · rw [min_eq_left h]
    refine List.take_eq_take.mpr ?_
    rw [List.length_drop]
    omega
  · rw [min_eq_right (le_of_lt h), List.drop_length,
      List.drop_eq_nil_of_le (le_of_lt h)]
    simp

theorem range_map_chunksOf (m : Nat) (hm : 0 < m) (text : List Char) :
    (List.range ((text.length + m - 1) / m)).map
      (fun k => (text.drop (k * m)).take m) = chunksOf m text := by
  induction text using chunksOf.induct m with
  | case1 text h =>
    rcases h with h | h
    · omega
    · subst h
      rw [chunksOf, dif_pos (Or.inr rfl)]
      simp only [List.length_nil]
      rw [Nat.div_eq_of_lt (by omega : 0 + m - 1 < m)]
      simp
  | case2 text h ih =>
    push_neg at h
    have hl : 0 < text.length := List.length_pos.mpr h.2
    have hn : (text.length + m - 1) / m = (((text.drop m).length + m - 1) / m) + 1 := by
      rw [List.length_drop]
      exact ceilDivSucc m hm text.length hl
    rw [chunksOf, dif_neg (by push_neg; exact h)]
    rw [hn, List.range_succ_eq_map, List.map_cons, List.map_map]
    congr 1
    · simp
    · rw [← ih]
      apply List.map_congr_left
      intro k hk
      simp only [Function.comp_apply]
      rw [List.drop_drop]
      congr 2
      rw [Nat.succ_mul]
      exact Nat.add_comm _ _

theorem chunk_text_eq_chunksOf (text : List Char) (M : Int) (hM : 0 < M) :
    chunk_text text M = .ok (chunksOf M.toNat text) := by
  obtain ⟨m, rfl⟩ : ∃ m : Nat, M = (m : Int) :=
    ⟨M.toNat, (Int.toNat_of_nonneg (le_of_lt hM)).symm⟩
  have hm : 0 < m := by omega
  rw [Int.toNat_natCast]
  unfold chunk_text pyRange
  rw [if_neg (by omega : ¬ (m : Int) = 0)]
  have hlen : pyRangeLen 0 (text.length : Int) (m : Int) = (text.length + m - 1) / m := by
    unfold pyRangeLen
    rw [if_pos (by omega : (0 : Int) < (m : Int))]
    have h1 : ((text.length : Int) - 0 + (m : Int) - 1) = ((text.length + m - 1 : Nat) : Int) := by
      omega
    rw [h1, ← Int.ofNat_ediv, Int.toNat_natCast]
  simp only [Except.map]
  rw [hlen, List.map_map, ← range_map_chunksOf m hm text]
  apply congrArg
  apply List.map_congr_left
  intro k hk
  simp only [Function.comp_apply]
  have h2 : ((0 : Int) + (k : Int) * (m : Int)) = ((k * m : Nat) : Int) := by
    push_cast; ring
  have h3 : ((0 : Int) + (k : Int) * (m : Int) + (m : Int)) = ((k * m + m : Nat) : Int) := by
    push_cast; ring
  rw [h3, h2, pySlice_natCast]
  congr 1
  omega

/-- C1: for every text `T` and maximum chunk size `M > 0`, `chunk_text T M`
succeeds and concatenating the returned chunks, in order, reconstructs `T`
exactly (lossless, gap-free, overlap-free round-trip). -/
theorem chunk_text_roundtrip (T : List Char) (M : Int) (hM : 0 < M) :
    ∃ cs, chunk_text T M = .ok cs ∧ cs.flatten = T :=
  ⟨chunksOf M.toNat T, chunk_text_eq_chunksOf T M hM,
    chunksOf_flatten M.toNat (by omega) T⟩

theorem chunk_text_roundtrip_witness :
    (0 : Int) < 2 ∧
      ∃ cs, chunk_text ("hello".toList) 2 = .ok cs ∧ cs.flatten = "hello".toList :=
  ⟨by decide, chunk_text_roundtrip ("hello".toList) 2 (by decide)⟩

/-- C2: for every text `T` and maximum chunk size `M > 0`, every chunk of
`chunk_text T M` has length at most `M`, the number of chunks is
`(len T + M - 1) / M` (the ceiling `⌈len T / M⌉` written in natural-number
floor division), and the empty text yields the empty chunk list. -/
theorem chunk_text_sizes_count (T : List Char) (M : Int) (hM : 0 < M) :
    ∃ cs, chunk_text T M = .ok cs ∧ (∀ c ∈ cs, c.length ≤ M.toNat) ∧
      cs.length = (T.length + M.toNat - 1) / M.toNat ∧ (T = [] → cs = []) := by
  refine ⟨chunksOf M.toNat T, chunk_text_eq_chunksOf T M hM,
    chunksOf_length_le M.toNat T, chunksOf_count M.toNat (by omega) T, ?_⟩
  intro hT
  subst hT
  rw [chunksOf, dif_pos (Or.inr rfl)]

theorem chunk_text_sizes_count_witness :
    (0 : Int) < 2 ∧
      ∃ cs, chunk_text ("hello".toList) 2 = .ok cs ∧
        (∀ c ∈ cs, c.length ≤ (2 : Int).toNat) ∧
        cs.length = ("hello".toList.length + (2 : Int).toNat - 1) / (2 : Int).toNat ∧
        ("hello".toList = [] → cs = []) :=
  ⟨by decide, chunk_text_sizes_count ("hello".toList) 2 (by decide)⟩

/-- C10: `chunk_text` never checks that its maximum chunk size is positive:
for every text `T` (including non-empty ones) and every `max_chars < 0` it
returns the empty list, silently discarding the input, and for
`max_chars = 0` the underlying `range` raises a `ValueError` instead of
returning. -/
theorem chunk_text_no_positivity_guard (T : List Char) (M : Int) (hM : M < 0) :
    chunk_text T M = .ok [] ∧
      chunk_text T 0 = .error ("ValueError: range() arg 3 must not be zero".toList) := by
  constructor
  · unfold chunk_text pyRange
    rw [if_neg (by omega : ¬ M = 0)]
    unfold pyRangeLen
    rw [if_neg (by omega : ¬ (0 : Int) < M)]
    have h0 : ((0 - (T.length : Int) + -M - 1) / -M).toNat = 0 := by
      rcases le_or_lt 0 (0 - (T.length : Int) + -M - 1) with h | h
      · rw [Int.ediv_eq_zero_of_lt h (by omega : 0 - (T.length : Int) + -M - 1 < -M)]
        rfl
      · have hq := Int.ediv_neg' h (by omega : (0 : Int) < -M)
        omega
    rw [h0]
    rfl
  · unfold chunk_text pyRange
    rw [if_pos rfl]
    rfl

theorem chunk_text_no_positivity_guard_witness :
    (-3 : Int) < 0 ∧
      (chunk_text ("hello".toList) (-3) = .ok [] ∧
        chunk_text ("hello".toList) 0
          = .error ("ValueError: range() arg 3 must not be zero".toList)) :=
  ⟨by decide, chunk_text_no_positivity_guard ("hello".toList) (-3) (by decide)⟩

theorem pyReadlines_flatten (l : List Char) : (pyReadlines l).flatten = l := by
  induction l with
  | nil => rfl
  | cons c rest ih =>
    rw [pyReadlines]
    by_cases hc : c = '\n'
    · subst hc
      rw [if_pos rfl, List.flatten_cons, ih]
      rfl
    · rw [if_neg hc]
      cases hr : pyReadlines rest with
      | nil =>
        rw [hr] at ih
        simp only [List.flatten_nil] at ih
        subst ih
        rfl
      | cons lhd lts =>
        rw [hr] at ih
        rw [List.flatten_cons]
        rw [List.flatten_cons] at ih
        rw [List.cons_append, ih]

set_option maxRecDepth 8000 in
/-- C4 counterexample: for a 100-line document with estimated word count
100 and target 29, the program keeps `int(100 * (29/100)) = 28` lines under
binary64 float arithmetic (CPython: `100 * (29/100)` evaluates to
`28.999999999999996`), not the `⌊100 * 29 / 100⌋ = 29` lines the claim's
exact-floor formula demands. -/
theorem trim_float_rounding_counterexample :
    estimate_latex_word_count (some docHundred) = 100 ∧
      (pyReadlines docHundred).length = 100 ∧
      100 * 29 / 100 = 29 ∧
      pyTrimKeep 100 29 100 = 28 ∧
      trim_latex_content (some docHundred) 29
        = some (((pyReadlines docHundred).take 28).flatten) ∧
      trim_latex_content (some docHundred) 29
        ≠ some (((pyReadlines docHundred).take 29).flatten) :=
  ⟨by decide, by decide, by decide, by decide, by decide, by decide⟩

/-- C4 (amended): for every document text whose estimated word count `E`
exceeds the target `W`, `trim_latex_content` rewrites the `L`-line file
with exactly the first `int(L * (W / E))` of its lines, where the division,
the int-to-float conversion of `L` and the product are IEEE-754 binary64
operations with round-to-nearest-even, as CPython computes them
(`pyTrimKeep`); this equals `⌊L * W / E⌋` except where binary64 rounding
moves the count (see the counterexample), and the result is an initial
segment of the original text. -/
theorem trim_over_budget_float (text : List Char) (W : Nat)
    (hE : W < estimate_latex_word_count (some text)) :
    ∃ kept rest,
      trim_latex_content (some text) W = some kept ∧
      kept = ((pyReadlines text).take
        (pyTrimKeep (pyReadlines text).length W
          (estimate_latex_word_count (some text)))).flatten ∧
      text = kept ++ rest := by
  refine ⟨((pyReadlines text).take
      (pyTrimKeep (pyReadlines text).length W
        (estimate_latex_word_count (some text)))).flatten,
    ((pyReadlines text).drop
      (pyTrimKeep (pyReadlines text).length W
        (estimate_latex_word_count (some text)))).flatten,
    ?_, rfl, ?_⟩
  · simp only [trim_latex_content]
    rw [if_neg (by omega : ¬ estimate_latex_word_count (some text) ≤ W)]
  · rw [← List.flatten_append, List.take_append_drop, pyReadlines_flatten]

theorem trim_over_budget_float_witness :
    2 < estimate_latex_word_count (some ("one two three\nfour five\n".toList)) ∧
      ∃ kept rest,
        trim_latex_content (some ("one two three\nfour five\n".toList)) 2 = some kept ∧
        kept = ((pyReadlines ("one two three\nfour five\n".toList)).take
          (pyTrimKeep (pyReadlines ("one two three\nfour five\n".toList)).length 2
            (estimate_latex_word_count (some ("one two three\nfour five\n".toList))))).flatten ∧
        "one two three\nfour five\n".toList = kept ++ rest :=
  ⟨by decide, trim_over_budget_float ("one two three\nfour five\n".toList) 2 (by decide)⟩

/-- C5: for every document text whose estimated word count is at or below the
target `W`, `trim_latex_content` is a no-op (the file is left byte-identical),
and trimming is therefore idempotent once the document is at or under
budget. -/
theorem trim_under_budget (text : List Char) (W : Nat)
    (hE : estimate_latex_word_count (some text) ≤ W) :
    trim_latex_content (some text) W = some text ∧
      trim_latex_content (trim_latex_content (some text) W) W
        = trim_latex_content (some text) W := by
  have h1 : trim_latex_content (some text) W = some text := by
    simp only [trim_latex_content]
    rw [if_pos hE]
  exact ⟨h1, by rw [h1]; exact h1⟩

theorem trim_under_budget_witness :
    estimate_latex_word_count (some ("hello world".toList)) ≤ 10 ∧
      (trim_latex_content (some ("hello world".toList)) 10 = some ("hello world".toList) ∧
        trim_latex_content (trim_latex_content (some ("hello world".toList)) 10) 10
          = trim_latex_content (some ("hello world".toList)) 10) :=
  ⟨by decide, trim_under_budget ("hello world".toList) 10 (by decide)⟩

/-- C8: `estimate_latex_word_count` strips control sequences (the regex
`\\[^ ]+{.*?}|\\[a-zA-Z]+|\{|\}`) before counting whitespace-delimited
tokens: on the input `\section{Intro} word1 word2` the whole control
sequence `\section{Intro}` is removed and the estimate is exactly 2. -/
theorem estimate_word_count_strips_commands :
    clsiSub ("\\section{Intro} word1 word2".toList) = " word1 word2".toList ∧
      countWords (" word1 word2".toList) = 2 ∧
      estimate_latex_word_count (some ("\\section{Intro} word1 word2".toList)) = 2 :=
  ⟨by decide, by decide, by decide⟩

/-- C9: a file that cannot be read (modelled as `none`) makes
`estimate_latex_word_count` return a zero word count instead of raising,
and consequently `trim_latex_content` treats the document as under budget
and leaves the file unchanged, for every target word count `W`. -/
theorem estimate_unreadable_zero_no_trim (W : Nat) :
    estimate_latex_word_count none = 0 ∧ trim_latex_content none W = none := by
  constructor
  · rfl
  · simp only [trim_latex_content]
    split <;> rfl

theorem startsWith_nil_true (l : List Char) : startsWith l [] = true := by
  cases l <;> rfl

theorem startsWith_append (n l b : List Char) (h : startsWith l n = true) :
    startsWith (l ++ b) n = true := by
  induction n generalizing l with
  | nil => exact startsWith_nil_true (l ++ b)
  | cons x xs ih =>
    cases l with
    | nil => simp [startsWith] at h
    | cons a as =>
      rw [List.cons_append]
      simp only [startsWith, Bool.and_eq_true] at h ⊢
      exact ⟨h.1, ih as h.2⟩

theorem hasSubstr_nil_true (l : List Char) : hasSubstr l [] = true := by
  cases l with
  | nil => rfl
  | cons c t => simp [hasSubstr, startsWith]

theorem hasSubstr_append_left (a b n : List Char) (h : hasSubstr a n = true) :
    hasSubstr (a ++ b) n = true := by
  induction a with
  | nil =>
    cases n with
    | nil => exact hasSubstr_nil_true b
    | cons x xs => simp [hasSubstr] at h
  | cons c t ih =>
    rw [List.cons_append]
    simp only [hasSubstr, Bool.or_eq_true] at h ⊢
    rcases h with h | h
    · left
      have h2 := startsWith_append n (c :: t) b h
      rw [List.cons_append] at h2
      exact h2
    · right
      exact ih h

/-- C6: `extract_pdf_text` (both script variants) never raises: whenever
opening/reading the PDF fails, or the OCR fallback fails, the caught
exception message is returned inside the string
`"Error extracting text from PDF: ..."` instead of propagating. -/
theorem extract_pdf_text_error_string (pdf : PdfFile) (sp ep : Nat) (e : List Char) :
    (pdf.openResult = Except.error e →
      extract_pdf_text pdf = errorMarker ++ e ∧
        extract_pdf_text_pages pdf sp ep = errorMarker ++ e) ∧
    (∀ pages, pdf.openResult = Except.ok pages → pdf.ocrResult = Except.error e →
      (pyStrip (concatPageTexts pages) = [] →
        extract_pdf_text pdf = errorMarker ++ e) ∧
      (pyStrip (concatPageTexts ((pages.take (min ep pages.length)).drop sp)) = [] →
        extract_pdf_text_pages pdf sp ep = errorMarker ++ e)) := by
  obtain ⟨o, r⟩ := pdf
  constructor
  · intro h
    cases h
    exact ⟨rfl, rfl⟩
  · intro pages hopen hocr
    cases hopen
    cases hocr
    constructor
    · intro hstrip
      simp only [extract_pdf_text]
      rw [if_neg (not_not_intro hstrip)]
    · intro hstrip
      simp only [extract_pdf_text_pages]
      rw [if_neg (not_not_intro hstrip)]

theorem extract_pdf_text_error_string_witness :
    extract_pdf_text ⟨Except.error ("boom".toList), Except.error ("x".toList)⟩
        = errorMarker ++ "boom".toList ∧
      extract_pdf_text_pages ⟨Except.error ("boom".toList), Except.error ("x".toList)⟩ 0 76
        = errorMarker ++ "boom".toList :=
  (extract_pdf_text_error_string
    ⟨Except.error ("boom".toList), Except.error ("x".toList)⟩ 0 76 ("boom".toList)).1 rfl

/-- C7: when the concatenated embedded page text is empty or whitespace-only,
`extract_pdf_text` falls back to the OCR output (the in-order concatenation
of the per-page OCR strings); if that is also empty or whitespace-only, it
returns the defined no-text sentinel of the respective script variant
instead of raising. -/
theorem extract_pdf_text_ocr_fallback (pdf : PdfFile) (sp ep : Nat)
    (pages imgs : List (List Char))
    (hopen : pdf.openResult = Except.ok pages)
    (hocr : pdf.ocrResult = Except.ok imgs) :
    (pyStrip (concatPageTexts pages) = [] →
      (pyStrip (concatOcrTexts imgs) ≠ [] →
        extract_pdf_text pdf = concatOcrTexts imgs) ∧
      (pyStrip (concatOcrTexts imgs) = [] →
        extract_pdf_text pdf = noTextSentinel)) ∧
    (pyStrip (concatPageTexts ((pages.take (min ep pages.length)).drop sp)) = [] →
      (pyStrip (concatOcrTexts imgs) ≠ [] →
        extract_pdf_text_pages pdf sp ep = concatOcrTexts imgs) ∧
      (pyStrip (concatOcrTexts imgs) = [] →
        extract_pdf_text_pages pdf sp ep = noTextSentinelPages sp ep)) := by
  obtain ⟨o, r⟩ := pdf
  cases hopen
  cases hocr
  constructor
  · intro hstrip
    constructor
    · intro hocrText
      simp only [extract_pdf_text]
      rw [if_neg (not_not_intro hstrip), if_pos hocrText]
    · intro hocrText
      simp only [extract_pdf_text]
      rw [if_neg (not_not_intro hstrip), if_neg (not_not_intro hocrText)]
  · intro hstrip
    constructor
    · intro hocrText
      simp only [extract_pdf_text_pages]
      rw [if_neg (not_not_intro hstrip), if_pos hocrText]
    · intro hocrText
      simp only [extract_pdf_text_pages]
      rw [if_neg (not_not_intro hstrip), if_neg (not_not_intro hocrText)]

theorem extract_pdf_text_ocr_fallback_witness :
    extract_pdf_text ⟨Except.ok [" ".toList], Except.ok [[]]⟩ = noTextSentinel :=
  ((extract_pdf_text_ocr_fallback ⟨Except.ok [" ".toList], Except.ok [[]]⟩ 0 76
    [" ".toList] [[]] rfl rfl).1 (by decide)).2 (by decide)

/-- C3 counterexample: in `main.py`, when `extract_pdf_text` returns an
extraction-error sentinel (a string containing `"Error"`),
`process_clsi_guideline` exits with code 1 instead of passing the string
downstream into task construction — the claim fails for this variant. -/
theorem process_gate_main_error_exits :
    process_text_gate_main ("Error extracting text from PDF: boom".toList)
        = PipelineOutcome.exited 1 ∧
      process_text_gate_main ("Error extracting text from PDF: boom".toList)
        ≠ PipelineOutcome.tasksBuilt ("Error extracting text from PDF: boom".toList) :=
  ⟨by decide, by decide⟩

/-- C3 (amended): in `hello.py`, the sentinel check is commented out, so every
extraction result (error sentinel or no-text sentinel included) is passed
downstream into task construction; in `main.py`, a result carrying the
`"Error extracting text from PDF: "` marker causes `sys.exit(1)`, while the
no-text OCR sentinel (for the default page range 1–76) still flows
downstream as document content. -/
theorem process_gate_error_flow :
    (∀ t, process_text_gate_hello t = PipelineOutcome.tasksBuilt t) ∧
      (∀ e, process_text_gate_main (errorMarker ++ e) = PipelineOutcome.exited 1) ∧
      process_text_gate_main (noTextSentinelPages 0 76)
        = PipelineOutcome.tasksBuilt (noTextSentinelPages 0 76) := by
  refine ⟨fun t => rfl, ?_, by decide⟩
  intro e
  have h : hasSubstr (errorMarker ++ e) ("Error".toList) = true :=
    hasSubstr_append_left errorMarker e ("Error".toList) (by decide)
  simp only [process_text_gate_main]
  rw [h, Bool.true_or]
  rfl
